import Mathlib

/-!
Verification development for the nuwault offline cache controller.

Shallow embedding of:
* the build-time cache-version generator (scripts service-worker generator,
  functions generateBuildHash / generateCacheVersion),
* the service worker template (src/templates/sw.template.js): CacheManager
  (getAppCaches, cleanupOldCaches, forceCacheUpdate), the install event
  handler with its index.html asset discovery, the fetch event handler for
  both the development and the production branch, and the message handler,
* the page-side command wrappers of src/utils/pwaManager.js with their
  timeout bounds.

JavaScript machine integers do not occur on these paths; all arithmetic is
on Nat with explicit reduction modulo 2^32 where SHA-256 needs it.  The
browser cache store is modelled as an association list from request URL
keys to stored responses; the network is an oracle assigning to each URL
either a response or a network failure (Option).
-/

namespace Nuwault

/-! ## Generic string helpers (used to model JS string / regex operations) -/

/-- Substring test on character lists: does `pat` occur contiguously in the list? -/
def listContainsSub (pat : List Char) : List Char → Bool
  | [] => pat.isEmpty
  | c :: cs => pat.isPrefixOf (c :: cs) || listContainsSub pat cs

/-- Model of JavaScript `String.prototype.includes`. -/
def strContains (s pat : String) : Bool := listContainsSub pat.data s.data

/-- Model of JavaScript `String.prototype.startsWith`. -/
def strStartsWith (s pre : String) : Bool := pre.data.isPrefixOf s.data

/-- Suffix test (the anchored `...$` regexes of the dynamic-cache patterns). -/
def strEndsWith (s post : String) : Bool := post.data.isSuffixOf s.data

/-- Model of the regex test `/\?t=\d+/` (a "?t=" followed by at least one digit). -/
def hasTimestampQuery : List Char → Bool
  | '?' :: 't' :: '=' :: c :: rest => c.isDigit || hasTimestampQuery ('t' :: '=' :: c :: rest)
  | _ :: cs => hasTimestampQuery cs
  | [] => false

/-- `new URL(url).pathname` for a same-origin URL: drop the origin when it is a
leading part of the URL, then cut at the first query or fragment delimiter.
(URL dot-segment normalisation is not modelled; none of the claims needs it.) -/
def pathnameOf (origin url : String) : String :=
  let rest := if strStartsWith url origin then url.data.drop origin.data.length else url.data
  ⟨rest.takeWhile (fun c => c ≠ '?' && c ≠ '#')⟩

/-! ## SHA-256 (executable, over byte lists, words as Nat mod 2^32)

The generator calls Node's `crypto.createHash('sha256')`; that library
function is embedded here in full so that the build-hash definition is
executable. -/

/-- Truncate to a 32-bit word. -/
def w32 (n : Nat) : Nat := n % 4294967296

/-- Right rotation of a 32-bit word. The two summands occupy disjoint bit ranges. -/
def rotr32 (b n : Nat) : Nat := (n >>> b) + ((n % (2 ^ b)) <<< (32 - b))

def bigSigma0 (x : Nat) : Nat := (rotr32 2 x) ^^^ (rotr32 13 x) ^^^ (rotr32 22 x)
def bigSigma1 (x : Nat) : Nat := (rotr32 6 x) ^^^ (rotr32 11 x) ^^^ (rotr32 25 x)
def smallSigma0 (x : Nat) : Nat := (rotr32 7 x) ^^^ (rotr32 18 x) ^^^ (x >>> 3)
def smallSigma1 (x : Nat) : Nat := (rotr32 17 x) ^^^ (rotr32 19 x) ^^^ (x >>> 10)
def chFn (x y z : Nat) : Nat := (x &&& y) ^^^ ((x ^^^ 4294967295) &&& z)
def majFn (x y z : Nat) : Nat := (x &&& y) ^^^ (x &&& z) ^^^ (y &&& z)

/-- The 64 SHA-256 round constants. -/
def K256 : List Nat :=
  [1116352408, 1899447441, 3049323471, 3921009573, 961987163, 1508970993,
   2453635748, 2870763221, 3624381080, 310598401, 607225278, 1426881987,
   1925078388, 2162078206, 2614888103, 3248222580, 3835390401, 4022224774,
   264347078, 604807628, 770255983, 1249150122, 1555081692, 1996064986,
   2554220882, 2821834349, 2952996808, 3210313671, 3336571891, 3584528711,
   113926993, 338241895, 666307205, 773529912, 1294757372, 1396182291,
   1695183700, 1986661051, 2177026350, 2456956037, 2730485921, 2820302411,
   3259730800, 3345764771, 3516065817, 3600352804, 4094571909, 275423344,
   430227734, 506948616, 659060556, 883997877, 958139571, 1322822218,
   1537002063, 1747873779, 1955562222, 2024104815, 2227730452, 2361852424,
   2428436474, 2756734187, 3204031479, 3329325298]

/-- Initial SHA-256 hash state. -/
def H256init : List Nat :=
  [1779033703, 3144134277, 1013904242, 2773480762,
   1359893119, 2600822924, 528734635, 1541459225]

/-- SHA-256 message padding: append 0x80, zero bytes to 56 mod 64, and the
big-endian 64-bit bit length. -/
def sha256pad (msg : List Nat) : List Nat :=
  let len := msg.length
  let bitLen := 8 * len
  let zeros := (64 + 55 - (len % 64)) % 64
  msg ++ [128] ++ List.replicate zeros 0 ++
    [(bitLen >>> 56) % 256, (bitLen >>> 48) % 256, (bitLen >>> 40) % 256, (bitLen >>> 32) % 256,
     (bitLen >>> 24) % 256, (bitLen >>> 16) % 256, (bitLen >>> 8) % 256, bitLen % 256]

/-- Group bytes into big-endian 32-bit words. -/
def bytesToWords : List Nat → List Nat
  | a :: b :: c :: d :: rest => ((a <<< 24) + (b <<< 16) + (c <<< 8) + d) :: bytesToWords rest
  | _ => []

/-- Split a list into 64-byte chunks (fuel-driven to stay structural). -/
def chunks64Aux : Nat → List Nat → List (List Nat)
  | 0, _ => []
  | _, [] => []
  | fuel + 1, l => l.take 64 :: chunks64Aux fuel (l.drop 64)

def chunks64 (l : List Nat) : List (List Nat) := chunks64Aux l.length l

/-- Extend the 16 chunk words by `n` further schedule words. -/
def scheduleW (ws : List Nat) : Nat → List Nat
  | 0 => ws
  | n + 1 =>
    let l := ws.length
    let x := w32 (smallSigma1 (ws.getD (l - 2) 0) + ws.getD (l - 7) 0 +
                  smallSigma0 (ws.getD (l - 15) 0) + ws.getD (l - 16) 0)
    scheduleW (ws ++ [x]) n

/-- One SHA-256 compression round; state is the 8-word working list. -/
def sha256round (st : List Nat) (kw : Nat × Nat) : List Nat :=
  match st with
  | [a, b, c, d, e, f, g, h] =>
    let t1 := w32 (h + bigSigma1 e + chFn e f g + kw.1 + kw.2)
    let t2 := w32 (bigSigma0 a + majFn a b c)
    [w32 (t1 + t2), a, b, c, w32 (d + t1), e, f, g]
  | other => other

/-- Compress one 64-byte chunk into the running hash state. -/
def sha256chunk (hs : List Nat) (chunk : List Nat) : List Nat :=
  let ws := scheduleW (bytesToWords chunk) 48
  let st := (ws.zip K256).foldl sha256round hs
  (hs.zip st).map (fun p => w32 (p.1 + p.2))

/-- SHA-256 digest of a byte list, as eight 32-bit words. -/
def sha256 (msg : List Nat) : List Nat :=
  (chunks64 (sha256pad msg)).foldl sha256chunk H256init

def hexChar (n : Nat) : Char := if n < 10 then Char.ofNat (48 + n) else Char.ofNat (87 + n)

/-- A 32-bit word as 8 lowercase hex characters. -/
def toHex8 (n : Nat) : List Char :=
  (List.range 8).map (fun i => hexChar ((n >>> (28 - 4 * i)) % 16))

/-- Lowercase hex digest, as produced by Node's `digest('hex')`. -/
def sha256hex (msg : List Nat) : String := ⟨((sha256 msg).map toHex8).flatten⟩

/-- UTF-8 bytes of the ASCII strings fed to the hash (decimal digits and hex
characters only, so code points are the bytes). -/
def strBytes (s : String) : List Nat := s.data.map Char.toNat

/-! ## Cache version generator (scripts generator, generateCacheVersion) -/

def base36Char (n : Nat) : Char := if n < 10 then Char.ofNat (48 + n) else Char.ofNat (87 + n)

def toBase36Core : Nat → Nat → List Char → List Char
  | 0, _, acc => acc
  | fuel + 1, n, acc =>
    if n = 0 then acc else toBase36Core fuel (n / 36) (base36Char (n % 36) :: acc)

/-- JavaScript `Number.prototype.toString(36)` for natural numbers. -/
def toBase36 (n : Nat) : String := if n = 0 then "0" else ⟨toBase36Core n n []⟩

/-- generateBuildHash: first 8 hex characters of
sha256(`Date.now().toString()` concatenated with the entropy hex string). -/
def generateBuildHash (timestampMs : Nat) (entropyHex : String) : String :=
  (sha256hex (strBytes (toString timestampMs ++ entropyHex))).take 8

/-- generateCacheVersion from the generator script: release versions (anything
other than the placeholders "0.0.0" and "1.0.0") get `version-hash`; the
placeholders get `version-base36seconds-hash`. -/
def generateCacheVersion (appVersion : String) (timestampMs : Nat) (entropyHex : String) : String :=
  let buildHash := generateBuildHash timestampMs entropyHex
  let shortTimestamp := toBase36 (timestampMs / 1000)
  let isProductionRelease := appVersion ≠ "0.0.0" ∧ appVersion ≠ "1.0.0"
  if isProductionRelease then
    appVersion ++ "-" ++ buildHash
  else
    appVersion ++ "-" ++ shortTimestamp ++ "-" ++ buildHash

/-! ## Service worker data model

Responses keep the fields the template inspects: `status`, whether
`response.type === 'basic'` (a direct same-origin response), and the body
text.  `ok` is the JavaScript `Response.ok` (status 200–299).  A cache
store is an association list from request-URL keys to responses (the
template's `caches.match` searches every cache, so the generation stores
are merged into one keyed store for the request-mediation model); the
network is an oracle from URL to `Option` response (`none` = the fetch
rejected). -/

structure SWResponse where
  status : Nat
  basic : Bool
  body : String
deriving DecidableEq, Repr

def SWResponse.ok (r : SWResponse) : Bool := decide (200 ≤ r.status) && decide (r.status ≤ 299)

structure SWRequest where
  method : String
  url : String
  navigate : Bool
  destination : String
deriving DecidableEq, Repr

abbrev CacheStore := List (String × SWResponse)

abbrev Network := String → Option SWResponse

/-- `cache.put`: replaces any existing entry for the key. -/
def cachePut (s : CacheStore) (k : String) (v : SWResponse) : CacheStore :=
  (k, v) :: s.filter (fun e => e.1 != k)

/-- `caches.match`: first stored response for the key. -/
def cacheMatch (s : CacheStore) (k : String) : Option SWResponse :=
  match s.find? (fun e => e.1 == k) with
  | some e => some e.2
  | none => none

def fetchOk (net : Network) (u : String) : Bool :=
  match net u with
  | some r => r.ok
  | none => false

/-! ## Template constants -/

/-- STATIC_CACHE_URLS from the service worker template. -/
def STATIC_CACHE_URLS : List String :=
  ["/", "/index.html", "/manifest.json",
   "/assets/img/icons/nuwault_icon_16x16.png",
   "/assets/img/icons/nuwault_icon_32x32.png",
   "/assets/img/icons/nuwault_icon_48x48.png",
   "/assets/img/icons/nuwault_icon_72x72.png",
   "/assets/img/icons/nuwault_icon_96x96.png",
   "/assets/img/icons/nuwault_icon_128x128.png",
   "/assets/img/icons/nuwault_icon_144x144.png",
   "/assets/img/icons/nuwault_icon_152x152.png",
   "/assets/img/icons/nuwault_icon_180x180.png",
   "/assets/img/icons/nuwault_icon_192x192.png",
   "/assets/img/icons/nuwault_icon_384x384.png",
   "/assets/img/icons/nuwault_icon_512x512.png",
   "/assets/img/favicon/favicon-96x96.png",
   "/assets/img/favicon/favicon.svg",
   "/assets/img/favicon/favicon.ico",
   "/assets/img/favicon/apple-touch-icon.png",
   "/assets/img/favicon/web-app-manifest-192x192.png",
   "/assets/img/favicon/web-app-manifest-512x512.png",
   "/assets/img/logo/nuwault_logo_horizontal_dark_360px.png",
   "/assets/img/logo/nuwault_logo_horizontal_light_360px.png",
   "/assets/img/logo/nuwault_logo_horizontal_white_360px.png",
   "/assets/img/logo/nuwault_logo_symbol.svg"]

/-- DYNAMIC_CACHE_PATTERNS: the anchored extension regexes
(`\.js$`, `\.css$`, `\.woff2?$`, `\.png$`, `\.jpg$`, `\.jpeg$`, `\.svg$`)
as suffix tests on the request URL. -/
def dynamicCacheMatch (url : String) : Bool :=
  strEndsWith url ".js" || strEndsWith url ".css" || strEndsWith url ".woff" ||
  strEndsWith url ".woff2" || strEndsWith url ".png" || strEndsWith url ".jpg" ||
  strEndsWith url ".jpeg" || strEndsWith url ".svg"

/-- DEV_EXCLUDE_PATTERNS as substring / pattern tests on the request URL. -/
def devExcludeMatch (url : String) : Bool :=
  strContains url "@vite/client" || strContains url "@react-refresh" ||
  strContains url ".hot-update." || strContains url "/src/" ||
  hasTimestampQuery url.data || strContains url "?import" || strContains url "favicon.ico"

/-- MAX_CACHES of CACHE_CONFIG. -/
def MAX_CACHES : Nat := 5

/-- `new Response('Not Found', 404)` used for robots.txt / sitemap.xml failures. -/
def notFoundTextResp : SWResponse := ⟨404, false, "Not Found"⟩

/-- `new Response(null, 404)` (empty body) used for favicon and image failures. -/
def emptyNotFoundResp : SWResponse := ⟨404, false, ""⟩

/-- `new Response('Service Unavailable', 503)`. -/
def serviceUnavailableResp : SWResponse := ⟨503, false, "Service Unavailable"⟩

/-- The development offline recovery page (HTML body abbreviated; only status
and non-emptiness matter to the claims). -/
def DEV_OFFLINE_RESP : SWResponse := ⟨503, false, "DEV_OFFLINE_PAGE html"⟩

/-- The production "app not cached yet" recovery page, served with status 200
(HTML body abbreviated). -/
def PROD_OFFLINE_RESP : SWResponse := ⟨200, false, "PROD_OFFLINE_PAGE html"⟩

/-- The synthesized minimal manifest returned when the manifest fetch rejects
(JSON body abbreviated). -/
def defaultManifestResp : SWResponse := ⟨200, false, "DEFAULT_MANIFEST json"⟩

/-- Typed fallback: empty 404 for image destinations, `Service Unavailable`
503 with a text body otherwise. -/
def typedFallback (req : SWRequest) : SWResponse :=
  if req.destination == "image" then emptyNotFoundResp else serviceUnavailableResp

/-! ## CacheManager (cache-name level) -/

/-- CacheManager.getAppCaches: cache names owned by the app (prefix filter). -/
def getAppCaches (cachePrefixStr : String) (cacheNames : List String) : List String :=
  cacheNames.filter (fun n => strStartsWith n cachePrefixStr)

/-- JavaScript `String.prototype.replace(pat, '')` for a plain-string pattern:
removes the first occurrence, if any. -/
def replaceFirstAux (pat : List Char) : List Char → Option (List Char)
  | [] => none
  | c :: cs =>
    if pat.isPrefixOf (c :: cs) then some ((c :: cs).drop pat.length)
    else (replaceFirstAux pat cs).map (fun l => c :: l)

def replaceFirst (s pat : String) : String :=
  match replaceFirstAux pat.data s.data with
  | some l => ⟨l⟩
  | none => s

/-- Code-point lexicographic order on character lists. -/
def charListLt : List Char → List Char → Bool
  | _, [] => false
  | [], _ :: _ => true
  | a :: as, b :: bs =>
    if a.toNat < b.toNat then true
    else if b.toNat < a.toNat then false
    else charListLt as bs

/-- `b.localeCompare(a)` modelled as code-point lexicographic comparison. -/
def strLt (a b : String) : Bool := charListLt a.data b.data

/-- Insertion step of a descending-order sort keyed by `key`.  An element
whose key equals an existing one is placed after it; the order among equal
keys is immaterial here, since distinct cache names give distinct keys and
the retention theorems assume distinct cache names (Nodup). -/
def insertDescBy (key : String → String) (x : String) : List String → List String
  | [] => [x]
  | y :: ys => if strLt (key y) (key x) then x :: y :: ys else y :: insertDescBy key x ys

def sortDescBy (key : String → String) : List String → List String
  | [] => []
  | x :: xs => insertDescBy key x (sortDescBy key xs)

/-- CacheManager.cleanupOldCaches: sort the owned caches by embedded version
string descending, mark everything beyond MAX_CACHES for deletion and, outside
development, additionally every owned cache other than the current one; return
the surviving cache names. -/
def cleanupOldCaches (isDev : Bool) (cachePrefixStr cacheName : String)
    (cacheNames : List String) : List String :=
  let appCaches := getAppCaches cachePrefixStr cacheNames
  let sortedCaches := sortDescBy (fun n => replaceFirst n cachePrefixStr) appCaches
  let overflow := sortedCaches.drop MAX_CACHES
  let cachesToDelete :=
    overflow ++ (if !isDev then sortedCaches.filter (fun n => n != cacheName) else [])
  cacheNames.filter (fun n => !(cachesToDelete.contains n))

/-! ## Cache.addAll / Cache.add and forceCacheUpdate (entry level)

`cache.addAll` follows the Cache API batch semantics the template relies on:
every request is fetched, and if any fetch rejects or yields a non-ok
response the whole call rejects and no entry is written. -/

def cacheAddAll (net : Network) (urls : List String) (c : CacheStore) : Option CacheStore :=
  if urls.all (fun u => fetchOk net u) then
    some (urls.foldl (fun acc u =>
      match net u with
      | some r => cachePut acc u r
      | none => acc) c)
  else none

/-- `cache.add(url)`: fetch and store; rejects on network failure or a non-ok
response. -/
def cacheAdd (net : Network) (u : String) (c : CacheStore) : Option CacheStore :=
  match net u with
  | some r => if r.ok then some (cachePut c u r) else none
  | none => none

/-- CacheManager.forceCacheUpdate: delete the current cache, reopen it empty,
then `addAll(STATIC_CACHE_URLS)`; `none` means the addAll rejected (and the
freshly opened cache holds nothing). -/
def forceCacheUpdate (net : Network) : Option CacheStore :=
  cacheAddAll net STATIC_CACHE_URLS []

structure ForceUpdateReply where
  success : Bool
deriving DecidableEq, Repr

/-- The FORCE_UPDATE message branch: reply success if forceCacheUpdate
resolved, failure if it rejected; either way the current generation ends up
with exactly the entries forceCacheUpdate left behind. -/
def handleForceUpdate (net : Network) : ForceUpdateReply × CacheStore :=
  match forceCacheUpdate net with
  | some c => ({ success := true }, c)
  | none => ({ success := false }, [])

/-! ## Install-time asset discovery

The install handler scans the fetched `/index.html` markup with
`/<script[^>]+src="([^"]+)"/g` and `/<link[^>]+href="([^"]+\.css)"/g`, then
re-extracts the attribute value from each matched substring with
`/src="([^"]+)"/` resp. `/href="([^"]+)"/`.  The scanner below reproduces the
JavaScript regex semantics on these patterns: leftmost match, greedy `[^>]+`
with backtracking, scan resuming after each match. -/

/-- Backtracking search for `[^>]+ attr "([^"]+)"` (plus the capture validity
check `valid`, used for the `\.css` requirement of the link pattern) inside
`tail`, trying the `[^>]+` length `k` first and then shorter ones.  Returns
the matched substring after the tag together with the rest of the input. -/
def attrBacktrack (attr : List Char) (valid : List Char → Bool) (tail : List Char) :
    Nat → Option (List Char × List Char)
  | 0 => none
  | k + 1 =>
    let rest := tail.drop (k + 1)
    if attr.isPrefixOf rest then
      let afterAttr := rest.drop attr.length
      let cap := afterAttr.takeWhile (fun c => c != '"')
      if cap.length != 0 && cap.length < afterAttr.length && valid cap then
        some (tail.take (k + 1) ++ attr ++ cap ++ ['"'], afterAttr.drop (cap.length + 1))
      else attrBacktrack attr valid tail k
    else attrBacktrack attr valid tail k

/-- Global scan for `tag [^>]+ attr "([^"]+)"`: collect the matched substrings
in order, continuing after each match (fuel = input length). -/
def regexScanAux (tag attr : List Char) (valid : List Char → Bool) :
    Nat → List Char → List (List Char)
  | 0, _ => []
  | _, [] => []
  | fuel + 1, c :: cs =>
    if tag.isPrefixOf (c :: cs) then
      let tail := (c :: cs).drop tag.length
      match attrBacktrack attr valid tail (tail.takeWhile (fun x => x != '>')).length with
      | some (m, rest) => (tag ++ m) :: regexScanAux tag attr valid fuel rest
      | none => regexScanAux tag attr valid fuel cs
    else regexScanAux tag attr valid fuel cs

/-- First (leftmost) capture of `attr "([^"]+)"` in a string, as in the
non-global re-extraction regexes of the install handler. -/
def firstAttrCapture (attr : List Char) : List Char → Option (List Char)
  | [] => none
  | c :: cs =>
    if attr.isPrefixOf (c :: cs) then
      let afterAttr := (c :: cs).drop attr.length
      let cap := afterAttr.takeWhile (fun x => x != '"')
      if cap.length != 0 && cap.length < afterAttr.length then some cap
      else firstAttrCapture attr cs
    else firstAttrCapture attr cs

/-- Capture validity for the link pattern: `([^"]+\.css)`. -/
def capEndsCss (cap : List Char) : Bool :=
  strEndsWith ⟨cap⟩ ".css" && decide (5 ≤ cap.length)

/-- Normalisation applied to each discovered attribute value: skip absolute
URLs (containing `://`), strip a leading `.` of `./`, ensure a leading `/`. -/
def normalizeAssetUrl (src : String) : Option String :=
  if strContains src "://" then none
  else some (if strStartsWith src "./" then ⟨src.data.drop 1⟩
             else if strStartsWith src "/" then src
             else "/" ++ src)

/-- The additional asset URLs the install handler discovers in the entry
document: script `src` values first, then stylesheet `href` values. -/
def extractAdditionalUrls (text : String) : List String :=
  let scripts := regexScanAux "<script".data "src=\"".data (fun _ => true)
    text.data.length text.data
  let links := regexScanAux "<link".data "href=\"".data capEndsCss
    text.data.length text.data
  (scripts.filterMap (fun m =>
    (firstAttrCapture "src=\"".data m).bind (fun cap => normalizeAssetUrl ⟨cap⟩))) ++
  (links.filterMap (fun m =>
    (firstAttrCapture "href=\"".data m).bind (fun cap => normalizeAssetUrl ⟨cap⟩)))

/-! ## Install event handler (entry level) -/

/-- The static-manifest phase of install: try the bulk `addAll` first; if it
rejects, fall back to `cache.add` per entry, logging and skipping failures. -/
def installStaticAssets (net : Network) (c : CacheStore) : CacheStore :=
  match cacheAddAll net STATIC_CACHE_URLS c with
  | some c2 => c2
  | none =>
    STATIC_CACHE_URLS.foldl (fun acc u =>
      match cacheAdd net u acc with
      | some acc2 => acc2
      | none => acc) c

/-- The asset URLs the install handler discovers: fetch `/index.html` and, if
the response is ok, scan its text; a rejected or non-ok fetch skips dynamic
discovery (non-fatal). -/
def installDiscoveredUrls (net : Network) : List String :=
  match net "/index.html" with
  | some r => if r.ok then extractAdditionalUrls r.body else []
  | none => []

/-- Best-effort caching of each discovered asset: `cache.put` on an ok fetch,
failures logged and skipped. -/
def installAdditionalAssets (net : Network) (c : CacheStore) : CacheStore :=
  (installDiscoveredUrls net).foldl (fun acc u =>
    match net u with
    | some r => if r.ok then cachePut acc u r else acc
    | none => acc) c

/-- The entry document stored under both the root key and its canonical path. -/
def installMainPage (net : Network) (c : CacheStore) : CacheStore :=
  match net "/index.html" with
  | some r => if r.ok then cachePut (cachePut c "/" r) "/index.html" r else c
  | none => c

/-- The manifest stored under `/manifest.json` when its fetch is ok. -/
def installManifest (net : Network) (c : CacheStore) : CacheStore :=
  match net "/manifest.json" with
  | some r => if r.ok then cachePut c "/manifest.json" r else c
  | none => c

/-- The production install event body, entry level, in the order the handler
runs its phases: static manifest phase, dynamic discovery from `/index.html`,
the entry document stored under `/` and `/index.html`, and the manifest
stored under `/manifest.json`.  In development the handler only calls
skipWaiting and caches nothing.  The concluding cleanupOldCaches call acts on
cache names and is modelled separately; the surrounding try/catch makes the
event handler total. -/
def installHandler (isDev : Bool) (net : Network) (c0 : CacheStore) : CacheStore :=
  if isDev then c0
  else installManifest net (installMainPage net (installAdditionalAssets net
    (installStaticAssets net c0)))

/-! ## Fetch event handler -/

/-- The tail of the production branch shared by the manifest fall-through:
navigation handling (cache-first shell with fire-and-forget background
refresh, network with fallback recovery page), then the generic
stale-while-revalidate / network-and-cache path with the typed fallback. -/
def prodFetchRest (net : Network) (store : CacheStore) (req : SWRequest) :
    Option SWResponse × CacheStore :=
  if req.navigate then
    match
      (match cacheMatch store "/index.html" with
       | some c => some c
       | none => cacheMatch store "/") with
    | some cached =>
      (some cached,
       match net "/index.html" with
       | some r => if r.ok then cachePut (cachePut store "/" r) "/index.html" r else store
       | none => store)
    | none =>
      match net "/index.html" with
      | some r =>
        if r.ok then (some r, cachePut (cachePut store "/" r) "/index.html" r)
        else (some PROD_OFFLINE_RESP, store)
      | none => (some PROD_OFFLINE_RESP, store)
  else
    match cacheMatch store req.url with
    | some cached =>
      (some cached,
       match net req.url with
       | some r =>
         if r.status == 200 && r.basic && dynamicCacheMatch req.url then
           cachePut store req.url r
         else store
       | none => store)
    | none =>
      match net req.url with
      | some r =>
        if r.status == 200 && r.basic && dynamicCacheMatch req.url then
          (some r, cachePut store req.url r)
        else (some r, store)
      | none =>
        match cacheMatch store req.url with
        | some c => (some c, store)
        | none =>
          if req.navigate then
            match cacheMatch store "/index.html" with
            | some c => (some c, store)
            | none => (some (typedFallback req), store)
          else (some (typedFallback req), store)

/-- The fetch event handler.  Returns the response the mediator answers with
(`none` = the event is not intercepted and passes through to the network
untouched) and the cache store after the handler, including its
fire-and-forget background writes. -/
def fetchHandler (isDev : Bool) (origin : String) (net : Network)
    (store : CacheStore) (req : SWRequest) : Option SWResponse × CacheStore :=
  if req.method != "GET" then (none, store)
  else if !(strStartsWith req.url origin) then (none, store)
  else
    if pathnameOf origin req.url == "/robots.txt" ||
       pathnameOf origin req.url == "/sitemap.xml" then
      (some (match net req.url with
             | some r => if r.ok then r else notFoundTextResp
             | none => notFoundTextResp), store)
    else if isDev then
      if devExcludeMatch req.url then (none, store)
      else if req.navigate then
        (some (match net req.url with
               | some r => if r.ok then r else DEV_OFFLINE_RESP
               | none => DEV_OFFLINE_RESP), store)
      else if strContains req.url "favicon.ico" || strContains req.url "favicon.svg" then
        (some (match net req.url with
               | some r => r
               | none => emptyNotFoundResp), store)
      else
        match net req.url with
        | some r =>
          if r.status == 200 && r.basic && dynamicCacheMatch req.url then
            (some r, cachePut store req.url r)
          else (some r, store)
        | none =>
          match cacheMatch store req.url with
          | some c => (some c, store)
          | none => (some (typedFallback req), store)
    else
      if strContains req.url "favicon.ico" || strContains req.url "favicon.svg" then
        (some (match net req.url with
               | some r => r
               | none => emptyNotFoundResp), store)
      else if strContains req.url "manifest.json" then
        match cacheMatch store "/manifest.json" with
        | some c => (some c, store)
        | none =>
          match net "/manifest.json" with
          | some r =>
            if r.ok then (some r, cachePut store "/manifest.json" r)
            else prodFetchRest net store req
          | none => (some defaultManifestResp, store)
      else prodFetchRest net store req

/-! ## Message event handler (cache-name level) -/

structure SWMessage where
  type : Option String
deriving DecidableEq, Repr

structure MsgReply where
  success : Bool
  clearedCaches : Option Nat
deriving DecidableEq, Repr

/-- The message event handler on the commands that act on whole cache stores.
`none` for the message or its type (or an empty type string, falsy in
JavaScript) means the handler returns without reply or effect.  CLEAR_CACHE
deletes every cache; CLEAR_APP_CACHE deletes the owned ones and reports how
many it deleted; SKIP_WAITING and unknown types reply nothing and change
nothing (FORCE_UPDATE acts on cache entries and is modelled by
handleForceUpdate). -/
def handleMessage (cachePrefixStr : String) (msg : Option SWMessage)
    (cacheNames : List String) : Option MsgReply × List String :=
  match msg with
  | none => (none, cacheNames)
  | some m =>
    match m.type with
    | none => (none, cacheNames)
    | some t =>
      if t == "" then (none, cacheNames)
      else if t == "CLEAR_CACHE" then
        (some { success := true, clearedCaches := some cacheNames.length }, [])
      else if t == "CLEAR_APP_CACHE" then
        let appCaches := getAppCaches cachePrefixStr cacheNames
        (some { success := true, clearedCaches := some appCaches.length },
         cacheNames.filter (fun n => !(appCaches.contains n)))
      else (none, cacheNames)

/-! ## Control Client command wrappers (pwaManager.js)

Each wrapper opens a MessageChannel, posts its command, and races the reply
against a timer.  A wrapper call is modelled on the reply behaviour: `none`
if the Interceptor never replies, `some (t, v)` if a reply with success
value `v` arrives `t` milliseconds after the command was issued.  The result
is the pair (resolution time in ms, returned success value). -/

abbrev ReplyArrival := Option (Nat × Bool)

/-- The reply/timer race: the reply wins strictly before `timeoutMs`,
otherwise the timer rejects at `timeoutMs` (`none` payload). -/
def raceReply (timeoutMs : Nat) (reply : ReplyArrival) : Nat × Option Bool :=
  match reply with
  | some (t, v) => if t < timeoutMs then (t, some v) else (timeoutMs, none)
  | none => (timeoutMs, none)

/-- getCacheStatus: 5000 ms timeout; on rejection the catch path returns the
fallback status object (`active: false` with an error field), modelled as a
failure result. -/
def getCacheStatusCall (reply : ReplyArrival) : Nat × Bool :=
  match raceReply 5000 reply with
  | (t, some v) => (t, v)
  | (t, none) => (t, false)

/-- clearAppCache: 10000 ms timeout; the catch path returns false. -/
def clearAppCacheCall (reply : ReplyArrival) : Nat × Bool :=
  match raceReply 10000 reply with
  | (t, some v) => (t, v)
  | (t, none) => (t, false)

/-- forceCacheUpdate: 15000 ms timeout; the catch path returns false. -/
def forceCacheUpdateCall (reply : ReplyArrival) : Nat × Bool :=
  match raceReply 15000 reply with
  | (t, some v) => (t, v)
  | (t, none) => (t, false)

/-- clearCache: 2000 ms timeout, but its catch path does NOT return false: it
falls back to deleting the caches directly from the page (taking `directMs`
further milliseconds) and returns true when that direct deletion succeeds,
false only when the fallback itself throws. -/
def clearCacheCall (reply : ReplyArrival) (directClearOk : Bool) (directMs : Nat) : Nat × Bool :=
  match raceReply 2000 reply with
  | (t, some v) => (t, v)
  | (t, none) => (t + directMs, directClearOk)

/-! ## Concrete instances used in witnesses and counterexamples -/

/-- A network where exactly two static-manifest fetches fail. -/
def c2net : Network :=
  fun u => if u == "/" || u == "/manifest.json" then none else some ⟨200, true, ""⟩

/-- Owned caches where six foreign-version generations sort above the current
one, so the current cache falls outside the MAX_CACHES window. -/
def c3names : List String :=
  ["app-v9.0.0-a", "app-v9.0.0-b", "app-v9.0.0-c", "app-v9.0.0-d", "app-v9.0.0-e",
   "app-v9.0.0-f", "app-v1.0.0-aaaa"]

def c3smallNames : List String := ["app-v2.0.0-b", "app-v1.0.0-a"]

def c4store : CacheStore := [("/index.html", ⟨200, true, "old shell"⟩)]

def c4req : SWRequest := ⟨"GET", "https://app.example/page", true, "document"⟩

/-- Background shell refetch resolving 204 No Content (ok, but not 200). -/
def c4net : Network :=
  fun u => if u == "/index.html" then some ⟨204, true, "new"⟩ else none

def c5net : Network := fun _ => some ⟨200, true, ""⟩

def c6req : SWRequest := ⟨"POST", "https://app.example/api", false, ""⟩

/-- An entry document that references the passthrough path as a script. -/
def c7doc : String := "<html><script src=\"/robots.txt\"></script></html>"

def c7net : Network :=
  fun u =>
    if u == "/index.html" then some ⟨200, true, c7doc⟩
    else if u == "/robots.txt" then some ⟨200, true, "robots body"⟩
    else none

def c7req : SWRequest := ⟨"GET", "https://app.example/robots.txt", false, ""⟩

def c8req : SWRequest := ⟨"GET", "https://app.example/api/data", false, "script"⟩

end Nuwault

namespace Nuwault

/-! ## Helper lemmas about the cache store -/

theorem find?_filter_ne (s : CacheStore) (k k0 : String) (h : k ≠ k0) :
    List.find? (fun e => e.1 == k) (s.filter (fun e => e.1 != k0)) =
      List.find? (fun e => e.1 == k) s := by
  induction s with
  | nil => rfl
  | cons e es ih =>
    by_cases hk0 : e.1 = k0
    · have h1 : (e.1 != k0) = false := by simp [hk0]
      have h2 : (e.1 == k) = false := by
        simp only [beq_eq_false_iff_ne, ne_eq]
        intro hh
        exact h (by rw [← hh, hk0])
      simp [List.filter_cons, h1, List.find?_cons, h2, ih]
    · have h1 : (e.1 != k0) = true := by simp [hk0]
      cases he : ((e.1 : String) == k) with
      | true => simp [List.filter_cons, h1, List.find?_cons, he]
      | false => simp [List.filter_cons, h1, List.find?_cons, he, ih]

theorem cacheMatch_cachePut_self (s : CacheStore) (k : String) (v : SWResponse) :
    cacheMatch (cachePut s k v) k = some v := by
  simp [cacheMatch, cachePut, List.find?_cons]

theorem cacheMatch_cachePut_ne (s : CacheStore) (k k0 : String) (v : SWResponse)
    (h : k ≠ k0) :
    cacheMatch (cachePut s k0 v) k = cacheMatch s k := by
  have h2 : (k0 == k) = false := by
    simp
    exact fun hk => h hk.symm
  simp only [cacheMatch, cachePut, List.find?_cons, h2]
  rw [find?_filter_ne s k k0 h]

theorem cachePut_changed (s : CacheStore) (k k0 : String) (v : SWResponse)
    (h : cacheMatch (cachePut s k0 v) k ≠ cacheMatch s k) : k = k0 := by
  by_contra hne
  exact h (cacheMatch_cachePut_ne s k k0 v hne)

theorem cachePut2_changed (s : CacheStore) (k a b : String) (va vb : SWResponse)
    (h : cacheMatch (cachePut (cachePut s a va) b vb) k ≠ cacheMatch s k) :
    k = a ∨ k = b := by
  by_cases hb : k = b
  · exact Or.inr hb
  · rw [cacheMatch_cachePut_ne _ _ _ _ hb] at h
    exact Or.inl (cachePut_changed _ _ _ _ h)

theorem cachePut_preserves_isSome (s : CacheStore) (k k0 : String) (v : SWResponse)
    (h : (cacheMatch s k).isSome = true) :
    (cacheMatch (cachePut s k0 v) k).isSome = true := by
  by_cases hk : k = k0
  · subst hk
    simp [cacheMatch_cachePut_self]
  · rw [cacheMatch_cachePut_ne _ _ _ _ hk]
    exact h

/-! ## Fold lemmas for the install phases -/

theorem foldPutNet_preserves (net : Network) (u : String) :
    ∀ (urls : List String) (acc : CacheStore), (cacheMatch acc u).isSome = true →
    (cacheMatch (urls.foldl (fun acc2 v =>
      match net v with
      | some r => cachePut acc2 v r
      | none => acc2) acc) u).isSome = true := by
  intro urls
  induction urls with
  | nil => intro acc h; exact h
  | cons v vs ih =>
    intro acc h
    simp only [List.foldl_cons]
    apply ih
    cases net v with
    | none => exact h
    | some r => exact cachePut_preserves_isSome _ _ _ _ h

theorem foldPutNet_hit (net : Network) (u : String) (hk : (net u).isSome = true) :
    ∀ (urls : List String) (acc : CacheStore), u ∈ urls →
    (cacheMatch (urls.foldl (fun acc2 v =>
      match net v with
      | some r => cachePut acc2 v r
      | none => acc2) acc) u).isSome = true := by
  intro urls
  induction urls with
  | nil => intro acc h; cases h
  | cons v vs ih =>
    intro acc hu
    simp only [List.foldl_cons]
    rcases List.mem_cons.mp hu with hv | hv
    · subst hv
      obtain ⟨r, hnet⟩ : ∃ r, net u = some r := by
        cases hn : net u with
        | none => rw [hn] at hk; cases hk
        | some r => exact ⟨r, rfl⟩
      simp only [hnet]
      apply foldPutNet_preserves
      simp [cacheMatch_cachePut_self]
    · exact ih _ hv

/-- The per-entry fallback step equals the best-effort put step. -/
theorem addStep_eq (net : Network) (v : String) (acc : CacheStore) :
    (match cacheAdd net v acc with
     | some acc3 => acc3
     | none => acc) =
    (match net v with
     | some r => if r.ok then cachePut acc v r else acc
     | none => acc) := by
  unfold cacheAdd
  cases net v with
  | none => rfl
  | some r =>
    show (match (if r.ok then some (cachePut acc v r) else none : Option CacheStore) with
          | some acc3 => acc3
          | none => acc) = (if r.ok then cachePut acc v r else acc)
    cases hok : r.ok <;> rfl

theorem foldAdd_eq (net : Network) : ∀ (urls : List String) (acc : CacheStore),
    urls.foldl (fun acc2 v =>
      match cacheAdd net v acc2 with
      | some acc3 => acc3
      | none => acc2) acc =
    urls.foldl (fun acc2 v =>
      match net v with
      | some r => if r.ok then cachePut acc2 v r else acc2
      | none => acc2) acc := by
  intro urls
  induction urls with
  | nil => intro acc; rfl
  | cons v vs ih =>
    intro acc
    simp only [List.foldl_cons]
    rw [addStep_eq]
    exact ih _

theorem foldPutOk_preserves (net : Network) (u : String) :
    ∀ (urls : List String) (acc : CacheStore), (cacheMatch acc u).isSome = true →
    (cacheMatch (urls.foldl (fun acc2 v =>
      match net v with
      | some r => if r.ok then cachePut acc2 v r else acc2
      | none => acc2) acc) u).isSome = true := by
  intro urls
  induction urls with
  | nil => intro acc h; exact h
  | cons v vs ih =>
    intro acc h
    simp only [List.foldl_cons]
    apply ih
    cases net v with
    | none => exact h
    | some r =>
      show (cacheMatch (if r.ok then cachePut acc v r else acc) u).isSome = true
      cases hok : r.ok with
      | false => exact h
      | true => exact cachePut_preserves_isSome _ _ _ _ h

theorem foldPutOk_hit (net : Network) (u : String) (hk : fetchOk net u = true) :
    ∀ (urls : List String) (acc : CacheStore), u ∈ urls →
    (cacheMatch (urls.foldl (fun acc2 v =>
      match net v with
      | some r => if r.ok then cachePut acc2 v r else acc2
      | none => acc2) acc) u).isSome = true := by
  intro urls
  induction urls with
  | nil => intro acc h; cases h
  | cons v vs ih =>
    intro acc hu
    simp only [List.foldl_cons]
    rcases List.mem_cons.mp hu with hv | hv
    · subst hv
      obtain ⟨r, hnet, hok⟩ : ∃ r, net u = some r ∧ r.ok = true := by
        unfold fetchOk at hk
        cases hn : net u with
        | none => rw [hn] at hk; cases hk
        | some r => rw [hn] at hk; exact ⟨r, rfl, hk⟩
      simp only [hnet, hok, if_true]
      apply foldPutOk_preserves
      simp [cacheMatch_cachePut_self]
    · exact ih _ hv

theorem foldPutOk_frame (net : Network) (u : String) (hk : fetchOk net u = false) :
    ∀ (urls : List String) (acc : CacheStore),
    cacheMatch (urls.foldl (fun acc2 v =>
      match net v with
      | some r => if r.ok then cachePut acc2 v r else acc2
      | none => acc2) acc) u = cacheMatch acc u := by
  intro urls
  induction urls with
  | nil => intro acc; rfl
  | cons v vs ih =>
    intro acc
    simp only [List.foldl_cons]
    cases hnet : net v with
    | none => exact ih acc
    | some r =>
      show cacheMatch (List.foldl _ (if r.ok then cachePut acc v r else acc) vs) u =
        cacheMatch acc u
      cases hok : r.ok with
      | false => exact ih acc
      | true =>
        have hvu : v ≠ u := by
          intro he
          rw [← he] at hk
          unfold fetchOk at hk
          rw [hnet] at hk
          simp [hok] at hk
        have h2 := ih (cachePut acc v r)
        rw [cacheMatch_cachePut_ne acc u v r (fun he => hvu he.symm)] at h2
        exact h2

theorem installAdditionalAssets_preserves (net : Network) (c : CacheStore) (u : String)
    (h : (cacheMatch c u).isSome = true) :
    (cacheMatch (installAdditionalAssets net c) u).isSome = true :=
  foldPutOk_preserves net u (installDiscoveredUrls net) c h

theorem installMainPage_preserves (net : Network) (c : CacheStore) (u : String)
    (h : (cacheMatch c u).isSome = true) :
    (cacheMatch (installMainPage net c) u).isSome = true := by
  unfold installMainPage
  cases net "/index.html" with
  | none => exact h
  | some r =>
    show (cacheMatch (if r.ok then cachePut (cachePut c "/" r) "/index.html" r else c) u).isSome
      = true
    cases hok : r.ok with
    | false => exact h
    | true => exact cachePut_preserves_isSome _ _ _ _ (cachePut_preserves_isSome _ _ _ _ h)

theorem installManifest_preserves (net : Network) (c : CacheStore) (u : String)
    (h : (cacheMatch c u).isSome = true) :
    (cacheMatch (installManifest net c) u).isSome = true := by
  unfold installManifest
  cases net "/manifest.json" with
  | none => exact h
  | some r =>
    show (cacheMatch (if r.ok then cachePut c "/manifest.json" r else c) u).isSome = true
    cases hok : r.ok with
    | false => exact h
    | true => exact cachePut_preserves_isSome _ _ _ _ h

theorem installStaticAssets_eq_of_all (net : Network) (c0 : CacheStore)
    (h : STATIC_CACHE_URLS.all (fun v => fetchOk net v) = true) :
    installStaticAssets net c0 = STATIC_CACHE_URLS.foldl (fun acc v =>
      match net v with
      | some r => cachePut acc v r
      | none => acc) c0 := by
  unfold installStaticAssets cacheAddAll
  simp [h]

theorem installStaticAssets_eq_of_not_all (net : Network) (c0 : CacheStore)
    (h : STATIC_CACHE_URLS.all (fun v => fetchOk net v) = false) :
    installStaticAssets net c0 = STATIC_CACHE_URLS.foldl (fun acc v =>
      match net v with
      | some r => if r.ok then cachePut acc v r else acc
      | none => acc) c0 := by
  unfold installStaticAssets cacheAddAll
  simp only [h, Bool.false_eq_true, if_false]
  exact foldAdd_eq net STATIC_CACHE_URLS c0
/-! ## C1 -/

/-- C1: the generated version string is a pure function of
`(appVersion, buildTimestampMs, randomEntropy)` and follows the branching
rule: the build hash is the first 8 hex characters of sha256 over the decimal
timestamp concatenated with the entropy; a version other than the
placeholders "0.0.0" and "1.0.0" yields `version-hash`, a placeholder yields
`version-base36(seconds)-hash`. -/
theorem C1_version_string_format (appVersion : String) (timestampMs : Nat) (entropyHex : String) :
    generateCacheVersion appVersion timestampMs entropyHex =
      (if appVersion ≠ "0.0.0" ∧ appVersion ≠ "1.0.0" then
        appVersion ++ "-" ++ (sha256hex (strBytes (toString timestampMs ++ entropyHex))).take 8
      else
        appVersion ++ "-" ++ toBase36 (timestampMs / 1000) ++ "-" ++
          (sha256hex (strBytes (toString timestampMs ++ entropyHex))).take 8) := rfl

/-! ## C2 -/

/-- C2 counterexample: rebuilding the current generation while 2 of the
static-manifest fetches fail makes the FORCE_UPDATE reply report
`success = false`, and the rebuilt generation holds no entries at all (the
bulk addAll is all-or-nothing), contrary to the claimed
partial-success-with-`success=true` behaviour. -/
theorem C2_counterexample :
    (handleForceUpdate c2net).1.success = false ∧ (handleForceUpdate c2net).2 = [] := by
  constructor <;> rfl

/-- C2 (amended): forceCacheUpdate rebuilds with a single bulk `addAll`, so
the FORCE_UPDATE reply reports success exactly when every static-manifest
fetch succeeds with an ok response; any failure rejects the whole rebuild,
leaving the freshly reopened generation empty. -/
theorem C2_force_update_all_or_nothing (net : Network) :
    ((handleForceUpdate net).1.success = STATIC_CACHE_URLS.all (fun u => fetchOk net u)) ∧
    (STATIC_CACHE_URLS.all (fun u => fetchOk net u) = false →
      (handleForceUpdate net).2 = []) := by
  constructor
  · unfold handleForceUpdate forceCacheUpdate cacheAddAll
    cases h : STATIC_CACHE_URLS.all (fun u => fetchOk net u) <;> simp [h]
  · intro h
    unfold handleForceUpdate forceCacheUpdate cacheAddAll
    simp [h]

/-- C2 witness for the amended theorem at the two-failures network. -/
theorem C2_force_update_all_or_nothing_witness :
    ((handleForceUpdate c2net).1.success = STATIC_CACHE_URLS.all (fun u => fetchOk c2net u)) ∧
    (STATIC_CACHE_URLS.all (fun u => fetchOk c2net u) = false →
      (handleForceUpdate c2net).2 = []) :=
  C2_force_update_all_or_nothing c2net

/-! ## C5 -/

/-- C5 counterexample: a development install writes nothing at all — the
install handler calls skipWaiting and returns before any cache write, so even
with a network where every fetch succeeds, the static-manifest entry `/` is
absent afterwards.  "For every install, every entry of the static manifest is
written: the bulk write is attempted first ..." is therefore false for
development installs. -/
theorem C5_counterexample :
    cacheMatch (installHandler true c5net []) "/" = none ∧
    fetchOk c5net "/" = true ∧ "/" ∈ STATIC_CACHE_URLS := by
  refine ⟨rfl, rfl, by decide⟩

/-- C5 (amended): on a production install, every static-manifest entry is
attempted — the bulk write first, then the per-entry fallback where one
entry's failure is skipped: an entry whose fetch succeeds (ok) ends up cached
no matter which other entries fail, an entry whose fetch fails leaves the
store unchanged at its key (and aborts nothing), and a successfully fetched
static entry is still present after the complete production install body.
(A development install skips caching entirely; see the counterexample.) -/
theorem C5_install_static_exhaustive (net : Network) (c0 : CacheStore) (u : String)
    (hu : u ∈ STATIC_CACHE_URLS) :
    (fetchOk net u = true → (cacheMatch (installStaticAssets net c0) u).isSome = true) ∧
    (fetchOk net u = false → cacheMatch (installStaticAssets net c0) u = cacheMatch c0 u) ∧
    (fetchOk net u = true → (cacheMatch (installHandler false net c0) u).isSome = true) := by
  have hstat : fetchOk net u = true →
      (cacheMatch (installStaticAssets net c0) u).isSome = true := by
    intro hok
    cases hall : STATIC_CACHE_URLS.all (fun v => fetchOk net v) with
    | true =>
      rw [installStaticAssets_eq_of_all net c0 hall]
      have hnet : (net u).isSome = true := by
        unfold fetchOk at hok
        rcases hn : net u with _ | r
        · rw [hn] at hok; cases hok
        · rfl
      exact foldPutNet_hit net u hnet STATIC_CACHE_URLS c0 hu
    | false =>
      rw [installStaticAssets_eq_of_not_all net c0 hall]
      exact foldPutOk_hit net u hok STATIC_CACHE_URLS c0 hu
  refine ⟨hstat, ?_, ?_⟩
  · intro hbad
    cases hall : STATIC_CACHE_URLS.all (fun v => fetchOk net v) with
    | true =>
      exfalso
      have := List.all_eq_true.mp hall u hu
      rw [hbad] at this
      cases this
    | false =>
      rw [installStaticAssets_eq_of_not_all net c0 hall]
      exact foldPutOk_frame net u hbad STATIC_CACHE_URLS c0
  · intro hok
    have h1 := hstat hok
    have h2 := installAdditionalAssets_preserves net _ u h1
    have h3 := installMainPage_preserves net _ u h2
    exact installManifest_preserves net _ u h3

/-- C5 witness: with an all-ok network, the root entry is cached by both the
static phase and the full install. -/
theorem C5_install_static_exhaustive_witness :
    "/" ∈ STATIC_CACHE_URLS ∧
    ((fetchOk c5net "/" = true →
        (cacheMatch (installStaticAssets c5net []) "/").isSome = true) ∧
     (fetchOk c5net "/" = false → cacheMatch (installStaticAssets c5net []) "/" =
        cacheMatch ([] : CacheStore) "/") ∧
     (fetchOk c5net "/" = true →
        (cacheMatch (installHandler false c5net []) "/").isSome = true)) :=
  ⟨by decide, C5_install_static_exhaustive c5net [] "/" (by decide)⟩

/-! ## C6 -/

/-- C6: a request whose method is not GET or whose URL is not same-origin is
not answered by the mediator (it passes through) and no cache store is
modified. -/
theorem C6_no_intercept_no_write (isDev : Bool) (origin : String) (net : Network)
    (store : CacheStore) (req : SWRequest)
    (h : req.method ≠ "GET" ∨ strStartsWith req.url origin = false) :
    fetchHandler isDev origin net store req = (none, store) := by
  unfold fetchHandler
  rcases h with h | h
  · have h1 : (req.method != "GET") = true := by simp [bne_iff_ne, h]
    rw [if_pos h1]
  · by_cases hm : req.method = "GET"
    · have h1 : ¬((req.method != "GET") = true) := by simp [bne_iff_ne, hm]
      have h2 : (!strStartsWith req.url origin) = true := by simp [h]
      rw [if_neg h1, if_pos h2]
    · have h1 : (req.method != "GET") = true := by simp [bne_iff_ne, hm]
      rw [if_pos h1]

/-- C6 witness: a POST request is passed through with the store untouched. -/
theorem C6_no_intercept_no_write_witness :
    fetchHandler false "https://app.example" c5net [] c6req = (none, []) :=
  C6_no_intercept_no_write false "https://app.example" c5net [] c6req
    (Or.inl (by decide))

/-! ## Sort and prune lemmas for C3 -/

theorem insertDescBy_perm (key : String → String) (x : String) (l : List String) :
    List.Perm (insertDescBy key x l) (x :: l) := by
  induction l with
  | nil => exact List.Perm.refl _
  | cons y ys ih =>
    unfold insertDescBy
    split
    · exact List.Perm.refl _
    · exact (ih.cons y).trans (List.Perm.swap x y ys)

theorem sortDescBy_perm (key : String → String) (l : List String) :
    List.Perm (sortDescBy key l) l := by
  induction l with
  | nil => exact List.Perm.refl _
  | cons x xs ih => exact (insertDescBy_perm key x _).trans (ih.cons x)

theorem notContains_iff (l : List String) (n : String) :
    ((!(l.contains n)) = true) ↔ n ∉ l := by
  simp [List.contains, List.elem_eq_mem]

/-- Membership in the owned caches surviving a prune pass: exactly the owned
caches within the MAX_CACHES newest by descending version order and, outside
development, additionally equal to the current cache name. -/
theorem cleanup_mem_char (isDev : Bool) (p cn : String) (names : List String)
    (hnd : names.Nodup) (n : String) :
    n ∈ getAppCaches p (cleanupOldCaches isDev p cn names) ↔
      (n ∈ (sortDescBy (fun m => replaceFirst m p) (getAppCaches p names)).take MAX_CACHES ∧
       (isDev = true ∨ n = cn)) := by
  have happnd : (getAppCaches p names).Nodup := hnd.filter _
  have hperm : List.Perm (sortDescBy (fun m => replaceFirst m p) (getAppCaches p names))
      (getAppCaches p names) := sortDescBy_perm _ _
  have hsortnd : (sortDescBy (fun m => replaceFirst m p) (getAppCaches p names)).Nodup :=
    hperm.nodup_iff.mpr happnd
  have hdisj : ∀ m, m ∈ (sortDescBy (fun mm => replaceFirst mm p)
      (getAppCaches p names)).take MAX_CACHES →
      m ∉ (sortDescBy (fun mm => replaceFirst mm p) (getAppCaches p names)).drop MAX_CACHES := by
    intro m hm hm2
    have h2 := hsortnd
    rw [← List.take_append_drop MAX_CACHES
      (sortDescBy (fun mm => replaceFirst mm p) (getAppCaches p names))] at h2
    exact (List.nodup_append.mp h2).2.2 hm hm2
  have hsplitmem : ∀ m, m ∈ sortDescBy (fun mm => replaceFirst mm p) (getAppCaches p names) ↔
      (m ∈ (sortDescBy (fun mm => replaceFirst mm p) (getAppCaches p names)).take MAX_CACHES ∨
       m ∈ (sortDescBy (fun mm => replaceFirst mm p) (getAppCaches p names)).drop MAX_CACHES) := by
    intro m
    conv_lhs => rw [← List.take_append_drop MAX_CACHES
      (sortDescBy (fun mm => replaceFirst mm p) (getAppCaches p names))]
    exact List.mem_append
  have hclean : cleanupOldCaches isDev p cn names =
      names.filter (fun m => !((((sortDescBy (fun mm => replaceFirst mm p)
        (getAppCaches p names)).drop MAX_CACHES) ++
        (if !isDev then (sortDescBy (fun mm => replaceFirst mm p)
          (getAppCaches p names)).filter (fun mm => mm != cn) else [])).contains m)) := rfl
  rw [hclean]
  unfold getAppCaches
  rw [List.mem_filter, List.mem_filter]
  constructor
  · rintro ⟨⟨hmem, hkeep⟩, hsw⟩
    rw [notContains_iff] at hkeep
    have hins : n ∈ sortDescBy (fun mm => replaceFirst mm p) (getAppCaches p names) :=
      hperm.mem_iff.mpr (List.mem_filter.mpr ⟨hmem, hsw⟩)
    have hnotdrop : n ∉ (sortDescBy (fun mm => replaceFirst mm p)
        (getAppCaches p names)).drop MAX_CACHES := by
      intro hd
      exact hkeep (List.mem_append.mpr (Or.inl hd))
    have htake : n ∈ (sortDescBy (fun mm => replaceFirst mm p)
        (getAppCaches p names)).take MAX_CACHES := by
      rcases (hsplitmem n).mp hins with h | h
      · exact h
      · exact absurd h hnotdrop
    refine ⟨htake, ?_⟩
    cases isDev with
    | true => exact Or.inl rfl
    | false =>
      right
      by_contra hne
      apply hkeep
      apply List.mem_append.mpr
      right
      show n ∈ (sortDescBy (fun mm => replaceFirst mm p) (getAppCaches p names)).filter
        (fun mm => mm != cn)
      exact List.mem_filter.mpr ⟨hins, by simp [hne]⟩
  · rintro ⟨htake, hor⟩
    have hins : n ∈ sortDescBy (fun mm => replaceFirst mm p) (getAppCaches p names) :=
      (hsplitmem n).mpr (Or.inl htake)
    have h2 := hperm.mem_iff.mp hins
    have h3 := List.mem_filter.mp h2
    refine ⟨⟨h3.1, ?_⟩, h3.2⟩
    rw [notContains_iff]
    intro hmem2
    rcases List.mem_append.mp hmem2 with h | h
    · exact hdisj n htake h
    · cases isDev with
      | true => exact List.not_mem_nil n (show n ∈ ([] : List String) from h)
      | false =>
        have h4 := List.mem_filter.mp
          (show n ∈ (sortDescBy (fun mm => replaceFirst mm p)
            (getAppCaches p names)).filter (fun mm => mm != cn) from h)
        rcases hor with h5 | h5
        · cases h5
        · rw [h5] at h4
          simp at h4

/-- C3 counterexample: a production prune pass over seven owned generations
in which six foreign versions sort above the current cache deletes every
owned generation — zero remain, not exactly one, although the current cache
name was among the owned caches. -/
theorem C3_counterexample :
    getAppCaches "app-v" (cleanupOldCaches false "app-v" "app-v1.0.0-aaaa" c3names) = [] ∧
    "app-v1.0.0-aaaa" ∈ c3names ∧ c3names.Nodup := by
  refine ⟨rfl, by decide, by decide⟩

/-- C3 (amended): after any prune pass the owned-generation count is at most
MAX_CACHES; in development exactly the MAX_CACHES newest owned caches by
descending version-string order survive, and in production only the current
cache survives, and only if it is among those MAX_CACHES newest — otherwise
nothing survives. -/
theorem C3_prune_retention (isDev : Bool) (p cn : String) (names : List String)
    (hnd : names.Nodup) :
    ((getAppCaches p (cleanupOldCaches isDev p cn names)).length ≤ MAX_CACHES) ∧
    (∀ n, n ∈ getAppCaches p (cleanupOldCaches isDev p cn names) ↔
      (n ∈ (sortDescBy (fun m => replaceFirst m p) (getAppCaches p names)).take MAX_CACHES ∧
       (isDev = true ∨ n = cn))) := by
  refine ⟨?_, cleanup_mem_char isDev p cn names hnd⟩
  have hsub : getAppCaches p (cleanupOldCaches isDev p cn names) ⊆
      (sortDescBy (fun m => replaceFirst m p) (getAppCaches p names)).take MAX_CACHES := by
    intro n hn
    exact ((cleanup_mem_char isDev p cn names hnd n).mp hn).1
  have hnd2 : (getAppCaches p (cleanupOldCaches isDev p cn names)).Nodup := by
    have h1 : (cleanupOldCaches isDev p cn names).Nodup := hnd.filter _
    exact h1.filter _
  calc (getAppCaches p (cleanupOldCaches isDev p cn names)).length
      ≤ ((sortDescBy (fun m => replaceFirst m p) (getAppCaches p names)).take
          MAX_CACHES).length := (hnd2.subperm hsub).length_le
    _ ≤ MAX_CACHES := by
        rw [List.length_take]
        exact Nat.min_le_left _ _

/-- C3 witness: a development prune over two owned caches keeps both, in
sorted position. -/
theorem C3_prune_retention_witness :
    c3smallNames.Nodup ∧
    ((getAppCaches "app-v" (cleanupOldCaches true "app-v" "app-v2.0.0-b"
        c3smallNames)).length ≤ MAX_CACHES ∧
     (∀ n, n ∈ getAppCaches "app-v" (cleanupOldCaches true "app-v" "app-v2.0.0-b"
        c3smallNames) ↔
       (n ∈ (sortDescBy (fun m => replaceFirst m "app-v")
          (getAppCaches "app-v" c3smallNames)).take MAX_CACHES ∧
        (true = true ∨ n = "app-v2.0.0-b")))) :=
  ⟨by decide, C3_prune_retention true "app-v" "app-v2.0.0-b" c3smallNames (by decide)⟩

/-! ## C4 -/

/-- C4 counterexample: with a cached shell present, a background refetch of
the shell that resolves 204 No Content (ok, but not 200) still overwrites the
cached `/index.html` entry — the production navigation branch checks only
`response.ok`, not "200 same-origin" as claimed. -/
theorem C4_counterexample :
    (fetchHandler false "https://app.example" c4net c4store c4req).1 =
      some ⟨200, true, "old shell"⟩ ∧
    cacheMatch (fetchHandler false "https://app.example" c4net c4store c4req).2 "/index.html" =
      some ⟨204, true, "new"⟩ ∧
    (⟨204, true, "new"⟩ : SWResponse).status ≠ 200 := by
  refine ⟨rfl, rfl, by decide⟩

/-- C4 (amended): in production, a navigation request with a cached shell is
answered with the cached response for every network outcome (a failing or
non-ok background fetch never surfaces), and the background fetch overwrites
the `/` and `/index.html` entries exactly when it resolves with an ok
(status 200–299) response — with no check that the response is 200 or
same-origin (`basic`). -/
theorem C4_nav_stale_while_revalidate (origin : String) (net : Network) (store : CacheStore)
    (req : SWRequest) (c : SWResponse)
    (hm : req.method = "GET")
    (ho : strStartsWith req.url origin = true)
    (hp : (pathnameOf origin req.url == "/robots.txt" ||
           pathnameOf origin req.url == "/sitemap.xml") = false)
    (hf : (strContains req.url "favicon.ico" || strContains req.url "favicon.svg") = false)
    (hmf : strContains req.url "manifest.json" = false)
    (hnav : req.navigate = true)
    (hc : (match cacheMatch store "/index.html" with
           | some x => some x
           | none => cacheMatch store "/") = some c) :
    fetchHandler false origin net store req =
      (some c,
       match net "/index.html" with
       | some r => if r.ok then cachePut (cachePut store "/" r) "/index.html" r else store
       | none => store) := by
  unfold fetchHandler
  rw [if_neg (by simp [bne_iff_ne, hm])]
  rw [if_neg (by simp [ho])]
  rw [if_neg (by simp [hp])]
  rw [if_neg (by simp)]
  rw [if_neg (by simp [hf])]
  rw [if_neg (by simp [hmf])]
  unfold prodFetchRest
  rw [if_pos hnav]
  rw [hc]

/-- C4 witness: the amended theorem at the 204-response instance. -/
theorem C4_nav_stale_while_revalidate_witness :
    fetchHandler false "https://app.example" c4net c4store c4req =
      (some ⟨200, true, "old shell"⟩,
       match c4net "/index.html" with
       | some r => if r.ok then cachePut (cachePut c4store "/" r) "/index.html" r else c4store
       | none => c4store) :=
  C4_nav_stale_while_revalidate "https://app.example" c4net c4store c4req
    ⟨200, true, "old shell"⟩ rfl rfl rfl rfl rfl rfl rfl

/-! ## C8 -/

/-- C8 counterexample: a failed non-navigation request with no cached entry
and a non-image destination is answered with a 503 whose body is the text
"Service Unavailable" — not an empty 503 as claimed. -/
theorem C8_counterexample :
    (fetchHandler false "https://app.example" (fun _ => none) [] c8req).1 =
      some serviceUnavailableResp ∧ serviceUnavailableResp.body ≠ "" := by
  refine ⟨rfl, by decide⟩

/-- C8 (amended): in both environments, a generic non-navigation request (not
a passthrough path, favicon, manifest, or dev-excluded URL) that fails on the
network with no cached entry is answered with an empty 404 when the request
destination is an image, and with a 503 carrying the body
"Service Unavailable" (not an empty body) otherwise. -/
theorem C8_typed_fallback_generic (isDev : Bool) (origin : String) (net : Network)
    (store : CacheStore) (req : SWRequest)
    (hm : req.method = "GET")
    (ho : strStartsWith req.url origin = true)
    (hp : (pathnameOf origin req.url == "/robots.txt" ||
           pathnameOf origin req.url == "/sitemap.xml") = false)
    (hex : devExcludeMatch req.url = false)
    (hf : (strContains req.url "favicon.ico" || strContains req.url "favicon.svg") = false)
    (hmf : strContains req.url "manifest.json" = false)
    (hnav : req.navigate = false)
    (hnet : net req.url = none)
    (hcache : cacheMatch store req.url = none) :
    fetchHandler isDev origin net store req =
      (some (if req.destination == "image" then emptyNotFoundResp else serviceUnavailableResp),
       store) := by
  unfold fetchHandler
  rw [if_neg (by simp [bne_iff_ne, hm])]
  rw [if_neg (by simp [ho])]
  rw [if_neg (by simp [hp])]
  cases isDev with
  | true =>
    rw [if_pos rfl]
    rw [if_neg (by simp [hex])]
    rw [if_neg (by simp [hnav])]
    rw [if_neg (by simp [hf])]
    rw [hnet, hcache]
    rfl
  | false =>
    rw [if_neg (by simp)]
    rw [if_neg (by simp [hf])]
    rw [if_neg (by simp [hmf])]
    unfold prodFetchRest
    rw [if_neg (by simp [hnav])]
    rw [hcache, hnet]
    rw [if_neg (by simp [hnav])]
    rfl

/-- C8 witness: the amended theorem at the concrete script-request instance. -/
theorem C8_typed_fallback_generic_witness :
    fetchHandler false "https://app.example" (fun _ => none) [] c8req =
      (some (if c8req.destination == "image" then emptyNotFoundResp else serviceUnavailableResp),
       []) :=
  C8_typed_fallback_generic false "https://app.example" (fun _ => none) [] c8req
    rfl rfl rfl rfl rfl rfl rfl rfl rfl

/-! ## C7 -/

/-- Frame lemma for the production tail: only the shell keys and the request
URL can change. -/
theorem prodFetchRest_frame (net : Network) (store : CacheStore) (req : SWRequest)
    (k : String)
    (h1 : k ≠ "/") (h2 : k ≠ "/index.html") (h4 : k ≠ req.url) :
    cacheMatch (prodFetchRest net store req).2 k = cacheMatch store k := by
  unfold prodFetchRest
  repeat' split
  all_goals
    first
    | rfl
    | rw [cacheMatch_cachePut_ne _ _ _ _ h2, cacheMatch_cachePut_ne _ _ _ _ h1]
    | rw [cacheMatch_cachePut_ne _ _ _ _ h4]

/-- Frame lemma: the fetch handler leaves every cache key other than the
fixed shell/manifest keys and the request URL itself untouched. -/
theorem fetchHandler_frame (isDev : Bool) (origin : String) (net : Network)
    (store : CacheStore) (req : SWRequest) (k : String)
    (hk : ¬ k ∈ ["/", "/index.html", "/manifest.json", req.url]) :
    cacheMatch (fetchHandler isDev origin net store req).2 k = cacheMatch store k := by
  have h1 : k ≠ "/" := by intro he; exact hk (by simp [he])
  have h2 : k ≠ "/index.html" := by intro he; exact hk (by simp [he])
  have h3 : k ≠ "/manifest.json" := by intro he; exact hk (by simp [he])
  have h4 : k ≠ req.url := by intro he; exact hk (by simp [he])
  unfold fetchHandler
  repeat' split
  all_goals
    first
    | rfl
    | rw [cacheMatch_cachePut_ne _ _ _ _ h3]
    | rw [cacheMatch_cachePut_ne _ _ _ _ h4]
    | exact prodFetchRest_frame net store req k h1 h2 h4

/-- C7 counterexample: an install whose entry document references the
passthrough path as a script caches `/robots.txt` into the generation (the
dynamic discovery fetches and stores any same-origin script source). -/
theorem C7_counterexample :
    cacheMatch (installHandler false c7net []) "/robots.txt" =
      some ⟨200, true, "robots body"⟩ := rfl

/-- C7 (amended): every request whose pathname is `/robots.txt` or
`/sitemap.xml` is answered, in both environments, with the network response
when it is ok and a 404 otherwise, with the store left entirely unchanged;
the fetch handler never writes any key other than `/`, `/index.html`,
`/manifest.json` and the request's own URL (so no robots/sitemap pathname is
ever written by request mediation); and neither passthrough path is in the
static install manifest.  Only the install-time dynamic discovery can cache
such a path, and only when the entry document references it. -/
theorem C7_passthrough_policy (isDev : Bool) (origin : String) (net : Network)
    (store : CacheStore) (req : SWRequest)
    (hm : req.method = "GET")
    (ho : strStartsWith req.url origin = true)
    (hp : (pathnameOf origin req.url == "/robots.txt" ||
           pathnameOf origin req.url == "/sitemap.xml") = true) :
    (fetchHandler isDev origin net store req =
      (some (match net req.url with
             | some r => if r.ok then r else notFoundTextResp
             | none => notFoundTextResp), store)) ∧
    (∀ k, cacheMatch (fetchHandler isDev origin net store req).2 k ≠ cacheMatch store k →
      k ∈ ["/", "/index.html", "/manifest.json", req.url]) ∧
    ("/robots.txt" ∉ STATIC_CACHE_URLS ∧ "/sitemap.xml" ∉ STATIC_CACHE_URLS) := by
  refine ⟨?_, ?_, by decide, by decide⟩
  · unfold fetchHandler
    rw [if_neg (by simp [bne_iff_ne, hm])]
    rw [if_neg (by simp [ho])]
    rw [if_pos hp]
  · intro k h
    by_contra hk
    exact h (fetchHandler_frame isDev origin net store req k hk)

/-- C7 witness: the amended theorem at a concrete production robots.txt
request over an empty store. -/
theorem C7_passthrough_policy_witness :
    (fetchHandler false "https://app.example" c7net [] c7req =
      (some (match c7net c7req.url with
             | some r => if r.ok then r else notFoundTextResp
             | none => notFoundTextResp), [])) ∧
    (∀ k, cacheMatch (fetchHandler false "https://app.example" c7net [] c7req).2 k ≠
        cacheMatch [] k →
      k ∈ ["/", "/index.html", "/manifest.json", c7req.url]) ∧
    ("/robots.txt" ∉ STATIC_CACHE_URLS ∧ "/sitemap.xml" ∉ STATIC_CACHE_URLS) :=
  C7_passthrough_policy false "https://app.example" c7net [] c7req rfl rfl rfl

/-! ## C9 -/

/-- C9 counterexample: a clearCache call whose reply never arrives does not
resolve as a failure — after the 2000 ms timer fires, the catch path clears
the caches directly from the page and the call resolves `true`. -/
theorem C9_counterexample : clearCacheCall none true 0 = (2000, true) := rfl

/-- C9 (amended): when no reply ever arrives, getCacheStatus resolves as a
failure at exactly its 5000 ms timeout, clearAppCache at 10000 ms and
forceCacheUpdate at 15000 ms, and none of the three ever resolves later than
its configured timeout; clearCache instead falls back, after its 2000 ms
timer, to clearing the caches directly from the page and resolves with the
fallback's outcome (true on success). -/
theorem C9_timeout_bounds :
    getCacheStatusCall none = (5000, false) ∧
    clearAppCacheCall none = (10000, false) ∧
    forceCacheUpdateCall none = (15000, false) ∧
    (∀ reply, (getCacheStatusCall reply).1 ≤ 5000) ∧
    (∀ reply, (clearAppCacheCall reply).1 ≤ 10000) ∧
    (∀ reply, (forceCacheUpdateCall reply).1 ≤ 15000) ∧
    (∀ ok d, clearCacheCall none ok d = (2000 + d, ok)) := by
  refine ⟨rfl, rfl, rfl, ?_, ?_, ?_, ?_⟩
  · intro reply
    rcases reply with _ | ⟨t, v⟩
    · simp [getCacheStatusCall, raceReply]
    · by_cases ht : t < 5000
      all_goals simp [getCacheStatusCall, raceReply, ht]
      all_goals omega
  · intro reply
    rcases reply with _ | ⟨t, v⟩
    · simp [clearAppCacheCall, raceReply]
    · by_cases ht : t < 10000
      all_goals simp [clearAppCacheCall, raceReply, ht]
      all_goals omega
  · intro reply
    rcases reply with _ | ⟨t, v⟩
    · simp [forceCacheUpdateCall, raceReply]
    · by_cases ht : t < 15000
      all_goals simp [forceCacheUpdateCall, raceReply, ht]
      all_goals omega
  · intro ok d
    rfl

/-! ## C10 -/

/-- C10: CLEAR_APP_CACHE twice in a row succeeds both times; the first reply
reports the number of owned generations, the second reports 0 because none
remains, and the second call changes nothing; a message with no data or no
type field (or a falsy empty type) is ignored entirely — no reply, no cache
modification. -/
theorem C10_clear_app_cache_idempotent (p : String) (names : List String) :
    ((handleMessage p (some ⟨some "CLEAR_APP_CACHE"⟩) names).1 =
        some { success := true, clearedCaches := some (getAppCaches p names).length }) ∧
    (getAppCaches p (handleMessage p (some ⟨some "CLEAR_APP_CACHE"⟩) names).2 = []) ∧
    ((handleMessage p (some ⟨some "CLEAR_APP_CACHE"⟩)
        (handleMessage p (some ⟨some "CLEAR_APP_CACHE"⟩) names).2).1 =
      some { success := true, clearedCaches := some 0 }) ∧
    ((handleMessage p (some ⟨some "CLEAR_APP_CACHE"⟩)
        (handleMessage p (some ⟨some "CLEAR_APP_CACHE"⟩) names).2).2 =
      (handleMessage p (some ⟨some "CLEAR_APP_CACHE"⟩) names).2) ∧
    (handleMessage p none names = (none, names)) ∧
    (handleMessage p (some ⟨none⟩) names = (none, names)) ∧
    (handleMessage p (some ⟨some ""⟩) names = (none, names)) := by
  have hafter : getAppCaches p (handleMessage p (some ⟨some "CLEAR_APP_CACHE"⟩) names).2 = [] := by
    show getAppCaches p (List.filter (fun n => !((getAppCaches p names).contains n)) names) = []
    rw [List.eq_nil_iff_forall_not_mem]
    intro n hn
    simp only [getAppCaches, List.mem_filter] at hn
    rcases hn with ⟨hn1, hsw⟩
    rcases hn1 with ⟨hmem, hkeep⟩
    have hin : n ∈ getAppCaches p names :=
      List.mem_filter.mpr ⟨hmem, hsw⟩
    simp only [Bool.not_eq_true', List.contains, List.elem_eq_mem,
      decide_eq_false_iff_not] at hkeep
    exact hkeep hin
  have hfst : (handleMessage p (some ⟨some "CLEAR_APP_CACHE"⟩) names).1 =
      some { success := true, clearedCaches := some (getAppCaches p names).length } := rfl
  have hsnd : ∀ l : List String, (handleMessage p (some ⟨some "CLEAR_APP_CACHE"⟩) l).2 =
      List.filter (fun n => !((getAppCaches p l).contains n)) l := fun _ => rfl
  have hfst2 : ∀ l : List String, (handleMessage p (some ⟨some "CLEAR_APP_CACHE"⟩) l).1 =
      some { success := true, clearedCaches := some (getAppCaches p l).length } := fun _ => rfl
  refine ⟨rfl, hafter, ?_, ?_, rfl, rfl, rfl⟩
  · rw [hfst2, hafter]
    rfl
  · rw [hsnd, hafter]
    rw [List.filter_eq_self]
    intro n _
    rfl

end Nuwault
